import Mathlib

/-! Verification development for the Mercado Livre search-offer service
(`scraper.py` plus its HTTP front door). The pipeline's pure core is
embedded shallowly: prices are exact rationals, JSON-optional fields are
`Option`, the network is an oracle `ℕ → Option ApiResponse` giving each
page's decoded response (`none` models any of the per-page network or
decode failures, which the code treats identically), and the page loop is
fuel recursion on the remaining page budget. -/

/-- Page size constant `ITEMS_PER_PAGE = 50` from scraper.py. -/
def ITEMS_PER_PAGE : ℕ := 50

/-- Python's `str.strip()` with no arguments: drop leading and trailing
whitespace. Executable model on the character list of the string. -/
def pyStrip (s : String) : String :=
  ⟨((s.data.dropWhile Char.isWhitespace).reverse.dropWhile Char.isWhitespace).reverse⟩

/-- Python's built-in `round` with no `ndigits`: round half to even,
returning an integer. -/
def pyRound (q : ℚ) : ℤ :=
  if q - ⌊q⌋ < 1/2 then ⌊q⌋
  else if 1/2 < q - ⌊q⌋ then ⌊q⌋ + 1
  else if 2 ∣ ⌊q⌋ then ⌊q⌋ else ⌊q⌋ + 1

/-- The `"sale_price"` sub-object of a raw API item: only the two fields
the code reads (`amount`, `regular_amount`). -/
structure SalePrice where
  amount : Option ℚ
  regular_amount : Option ℚ
  deriving DecidableEq

/-- One entry of the `"prices" -> "prices"` list of a raw API item. The
code also reads `"conditions"` into a local that is never used, so it is
not modelled. -/
structure PriceEntry where
  type : Option String
  amount : Option ℚ
  deriving DecidableEq

/-- The `"prices"` sub-object of a raw API item; its inner `"prices"` key
defaults to the empty list when absent, as in the code's `.get("prices", [])`. -/
structure PricesInfo where
  prices : List PriceEntry
  deriving DecidableEq

/-- A raw API item, restricted to the fields scraper.py reads. `none`
models an absent key. -/
structure Item where
  title : Option String
  permalink : Option String
  link : Option String
  price : Option ℚ
  original_price : Option ℚ
  sale_price : Option SalePrice
  prices : Option PricesInfo
  deriving DecidableEq

/-- The `Product` dataclass of scraper.py. -/
structure Product where
  title : String
  link : String
  price : ℚ
  original_price : Option ℚ
  discount_percent : ℤ
  deriving DecidableEq

/-- The `"paging"` sub-object of an API page response; only `"total"` is read. -/
structure Paging where
  total : Option ℕ
  deriving DecidableEq

/-- A decoded API page response, restricted to the fields scraper.py reads;
an absent `"results"` key is the empty list, as in `.get("results", [])`. -/
structure ApiResponse where
  paging : Option Paging
  results : List Item
  deriving DecidableEq

/-- `_calculate_discount` from scraper.py: 0 when there is no original
price, or it is non-positive, or it does not exceed the current price;
otherwise `int(round(((original - price) / original) * 100))`. -/
def calculate_discount (price : ℚ) (original_price : Option ℚ) : ℤ :=
  match original_price with
  | none => 0
  | some o => if o ≤ 0 ∨ o ≤ price then 0 else pyRound ((o - price) / o * 100)

/-- The `for price_entry in price_list` loop of `_extract_original_price`:
return the amount of the first entry whose `"type"` is `"standard"` and
whose `"amount"` is present and positive; entries failing either test are
skipped (the Python loop `continue`s past them). -/
def standardPriceAmount : List PriceEntry → Option ℚ
  | [] => none
  | e :: rest =>
    if e.type.getD "" = "standard" then
      match e.amount with
      | some a => if 0 < a then some a else standardPriceAmount rest
      | none => standardPriceAmount rest
    else standardPriceAmount rest

/-- Third block of `_extract_original_price`: look inside the `"prices"`
sub-object when present. -/
def original_from_prices (item : Item) : Option ℚ :=
  match item.prices with
  | some info => standardPriceAmount info.prices
  | none => none

/-- Second block of `_extract_original_price`: the `"regular_amount"` of
`"sale_price"` when present and positive, else fall through to the
`"prices"` block. -/
def original_from_sale_price (item : Item) : Option ℚ :=
  match item.sale_price with
  | some sp =>
    match sp.regular_amount with
    | some r => if 0 < r then some r else original_from_prices item
    | none => original_from_prices item
  | none => original_from_prices item

/-- `_extract_original_price` from scraper.py: the direct
`"original_price"` field when present and positive (Python's
`if original_price and original_price > 0`), else the sale-price block,
else the prices block, else `none`. -/
def extract_original_price (item : Item) : Option ℚ :=
  match item.original_price with
  | some v => if 0 < v then some v else original_from_sale_price item
  | none => original_from_sale_price item

/-- `_build_product_link` from scraper.py:
`item.get("permalink", item.get("link", ""))`. -/
def build_product_link (item : Item) : String :=
  match item.permalink with
  | some s => s
  | none => item.link.getD ""

/-- The current-price selection of `_extract_product_from_api`, mirroring
the Python control flow: when the direct `"price"` is absent or
non-positive, it is overwritten by `sale_price["amount"]` whenever the
`"sale_price"` object is present (and kept as-is when it is not); a final
value that is absent or non-positive rejects the item. When the direct
price is positive the Python code skips the second check, which a
positive value passes anyway, so the candidate is returned directly. -/
def currentPriceCandidate (item : Item) : Option ℚ :=
  match item.price with
  | some v =>
    if v ≤ 0 then
      match item.sale_price with
      | some sp => sp.amount
      | none => some v
    else some v
  | none =>
    match item.sale_price with
    | some sp => sp.amount
    | none => none

/-- The original-price sanity check of `_extract_product_from_api`:
`if original_price is not None and original_price <= price:
original_price = None`. -/
def sanitizedOriginal (item : Item) (price : ℚ) : Option ℚ :=
  match extract_original_price item with
  | some o => if o ≤ price then none else some o
  | none => none

/-- `_extract_product_from_api` from scraper.py, assembled from the
pieces above. -/
def extract_product_from_api (item : Item) : Option Product :=
  let title := pyStrip (item.title.getD "")
  if title = "" then none
  else
    match currentPriceCandidate item with
    | none => none
    | some price =>
      if price ≤ 0 then none
      else
        some { title := title, link := build_product_link item, price := price,
               original_price := sanitizedOriginal item price,
               discount_percent := calculate_discount price (sanitizedOriginal item price) }

/-- `parse_products_from_api` from scraper.py: extract each item of
`"results"`, keeping the successes. The Python per-item `try/except`
cannot fire in the embedding, where extraction is a total function. -/
def parse_products_from_api (data : ApiResponse) : List Product :=
  data.results.filterMap extract_product_from_api

/-- The effective total of a page response:
`data.get("paging", {}).get("total", 0)`. -/
def pageTotal (data : ApiResponse) : ℕ :=
  match data.paging with
  | some pg => pg.total.getD 0
  | none => 0

/-- The `for page in range(max_pages)` loop of `scrape_mercadolivre`,
as fuel recursion with `fuel = max_pages - page`. A failed fetch, a zero
reported total, and a page with no parseable products each stop the loop;
a page satisfying `offset + ITEMS_PER_PAGE >= total` is the last one kept.
The inter-page random delay has no effect on the result and is not
modelled. -/
def scrapeLoop (fetch : ℕ → Option ApiResponse) : ℕ → ℕ → List Product
  | _, 0 => []
  | page, fuel + 1 =>
    match fetch page with
    | none => []
    | some data =>
      if pageTotal data = 0 then []
      else
        let products := parse_products_from_api data
        if products = [] then []
        else if pageTotal data ≤ page * ITEMS_PER_PAGE + ITEMS_PER_PAGE then products
        else products ++ scrapeLoop fetch (page + 1) fuel

/-- Descending comparison on `discount_percent`, the order used by
`filtered.sort(key=lambda p: p.discount_percent, reverse=True)`. -/
def discountGE (a b : Product) : Prop :=
  b.discount_percent ≤ a.discount_percent

instance : DecidableRel discountGE :=
  fun a b => inferInstanceAs (Decidable (b.discount_percent ≤ a.discount_percent))

instance : IsTotal Product discountGE :=
  ⟨fun a b => le_total b.discount_percent a.discount_percent⟩

instance : IsTrans Product discountGE :=
  ⟨fun _ _ _ h1 h2 => le_trans h2 h1⟩

/-- Python's `list.sort(key=..., reverse=True)` is a stable sort into
non-increasing key order; insertion sort along `discountGE` has the same
input/output behaviour. -/
def sortByDiscountDesc (l : List Product) : List Product :=
  l.insertionSort discountGE

/-- `scrape_mercadolivre` from scraper.py, with the network abstracted as
`fetch` (page index ↦ decoded response or failure). The Python function
returns the products as dicts via `to_dict`; the embedding returns the
records themselves. -/
def scrape_mercadolivre (fetch : ℕ → Option ApiResponse)
    (min_discount : ℤ) (max_pages : ℕ) : List Product :=
  let filtered :=
    (scrapeLoop fetch 0 max_pages).filter fun p => min_discount ≤ p.discount_percent
  sortByDiscountDesc filtered

/-- Keep an optional rational only when it is positive. -/
def positivePart (v : Option ℚ) : Option ℚ :=
  match v with
  | some x => if 0 < x then some x else none
  | none => none

/-- An entry of the `"prices"` collection whose type is `"standard"` and
whose amount is present and positive, as the spec's clause (c) selects. -/
def isStandardPositive (e : PriceEntry) : Bool :=
  e.type.getD "" = "standard" &&
    match e.amount with
    | some a => decide (0 < a)
    | none => false

/-- The spec's wording of original-price selection, stated independently
for comparison with `extract_original_price`: first match among (a) the
direct `"original_price"` field if positive, (b) the nested sale-price
`"regular_amount"` if positive, (c) the amount of the first entry of the
`"prices"` collection satisfying `isStandardPositive`. -/
def spec_original_price (item : Item) : Option ℚ :=
  (positivePart item.original_price).orElse fun _ =>
    (positivePart (item.sale_price.bind SalePrice.regular_amount)).orElse fun _ =>
      (((match item.prices with
         | some info => info.prices
         | none => []).filter isStandardPositive).head?).bind PriceEntry.amount

/-! Concrete fixtures: small items, pages and fetch oracles used to
exercise the pipeline on closed inputs. -/

/-- Item at 10% off: current 90, original 100. -/
def itemA : Item :=
  { title := some "a", permalink := none, link := none, price := some 90,
    original_price := some 100, sale_price := none, prices := none }

/-- Item at 60% off: current 40, original 100. -/
def itemB : Item :=
  { title := some "b", permalink := none, link := none, price := some 40,
    original_price := some 100, sale_price := none, prices := none }

/-- Item at 75% off: current 25, original 100. -/
def itemC : Item :=
  { title := some "c", permalink := none, link := none, price := some 25,
    original_price := some 100, sale_price := none, prices := none }

/-- Spec example: original 100, current 80. -/
def item2080 : Item :=
  { title := some "d", permalink := none, link := none, price := some 80,
    original_price := some 100, sale_price := none, prices := none }

/-- Spec example: original 99, current 66. -/
def item9966 : Item :=
  { title := some "e", permalink := none, link := none, price := some 66,
    original_price := some 99, sale_price := none, prices := none }

/-- Item with a title but no recoverable price. -/
def itemNoPrice : Item :=
  { title := some "f", permalink := none, link := none, price := none,
    original_price := none, sale_price := none, prices := none }

/-- The record extracted from `itemA`. -/
def prodA : Product :=
  { title := "a", link := "", price := 90, original_price := some 100,
    discount_percent := 10 }

/-- The record extracted from `itemB`. -/
def prodB : Product :=
  { title := "b", link := "", price := 40, original_price := some 100,
    discount_percent := 60 }

/-- The record extracted from `itemC`. -/
def prodC : Product :=
  { title := "c", link := "", price := 25, original_price := some 100,
    discount_percent := 75 }

/-- The record extracted from `item2080`. -/
def prod2080 : Product :=
  { title := "d", link := "", price := 80, original_price := some 100,
    discount_percent := 20 }

/-- The record extracted from `item9966`. -/
def prod9966 : Product :=
  { title := "e", link := "", price := 66, original_price := some 99,
    discount_percent := 33 }

/-- One page with the three discounted items and a matching total. -/
def dataEx : ApiResponse :=
  { paging := some { total := some 3 }, results := [itemA, itemB, itemC] }

/-- Oracle serving `dataEx` for every page. -/
def fetchEx : ℕ → Option ApiResponse := fun _ => some dataEx

/-- A page that reports many more results than it carries, so pagination
would continue past it. -/
def dataMore : ApiResponse :=
  { paging := some { total := some 200 }, results := [itemA] }

/-- Oracle whose page 0 succeeds and whose page 1 fails at the network
layer. -/
def fetchFailAt1 : ℕ → Option ApiResponse := fun k =>
  if k = 0 then some dataMore else none

/-- A page reporting a total of zero matches. -/
def dataZero : ApiResponse :=
  { paging := some { total := some 0 }, results := [] }

/-- Oracle serving `dataZero` for every page. -/
def fetchZero : ℕ → Option ApiResponse := fun _ => some dataZero

/-- A page with no `"paging"` object at all, yet with a parseable item. -/
def dataNoPaging : ApiResponse :=
  { paging := none, results := [itemA] }

/-- Oracle serving `dataNoPaging` for every page. -/
def fetchNoPaging : ℕ → Option ApiResponse := fun _ => some dataNoPaging


/-! Helper lemmas. -/

/-- `pyRound` never goes below the floor of its argument. -/
lemma floor_le_pyRound (q : ℚ) : ⌊q⌋ ≤ pyRound q := by
  unfold pyRound
  split_ifs <;> omega

/-- `pyRound` never exceeds the floor of its argument plus one. -/
lemma pyRound_le_floor_add_one (q : ℚ) : pyRound q ≤ ⌊q⌋ + 1 := by
  unfold pyRound
  split_ifs <;> omega

/-- Characterisation of a successful extraction: the title must survive
stripping, the current-price candidate must exist and be positive, and
the record is then fully determined. -/
lemma extract_eq_some_iff (item : Item) (p : Product) :
    extract_product_from_api item = some p ↔
      pyStrip (item.title.getD "") ≠ "" ∧
      ∃ pr, currentPriceCandidate item = some pr ∧ 0 < pr ∧
        p = { title := pyStrip (item.title.getD ""),
              link := build_product_link item,
              price := pr,
              original_price := sanitizedOriginal item pr,
              discount_percent := calculate_discount pr (sanitizedOriginal item pr) } := by
  constructor
  · intro h
    unfold extract_product_from_api at h
    by_cases ht : pyStrip (item.title.getD "") = ""
    · simp [ht] at h
    · simp only [if_neg ht] at h
      cases hc : currentPriceCandidate item with
      | none => rw [hc] at h; simp at h
      | some pr =>
        rw [hc] at h
        by_cases hpr : pr ≤ 0
        · simp [hpr] at h
        · simp only [if_neg hpr] at h
          exact ⟨ht, pr, rfl, not_le.1 hpr, (Option.some_inj.mp h).symm⟩
  · rintro ⟨ht, pr, hc, hpos, rfl⟩
    unfold extract_product_from_api
    simp only [if_neg ht, hc, if_neg (not_le.2 hpos)]

/-- Characterisation of a failed extraction. -/
lemma extract_eq_none_iff (item : Item) :
    extract_product_from_api item = none ↔
      pyStrip (item.title.getD "") = "" ∨
      (∀ pr, currentPriceCandidate item = some pr → pr ≤ 0) := by
  constructor
  · intro h
    unfold extract_product_from_api at h
    by_cases ht : pyStrip (item.title.getD "") = ""
    · exact Or.inl ht
    · simp only [if_neg ht] at h
      cases hc : currentPriceCandidate item with
      | none => exact Or.inr fun pr hpr => nomatch hpr
      | some pr =>
        rw [hc] at h
        by_cases hpr : pr ≤ 0
        · exact Or.inr (fun pr' hpr' => by rw [Option.some_inj.mp hpr'.symm]; exact hpr)
        · simp [hpr] at h
  · intro h
    unfold extract_product_from_api
    by_cases ht : pyStrip (item.title.getD "") = ""
    · simp [ht]
    · simp only [if_neg ht]
      cases hc : currentPriceCandidate item with
      | none => rfl
      | some pr =>
        have hpr : pr ≤ 0 := (h.resolve_left ht) pr hc
        simp [hpr]

/-- Candidate equation: positive direct price. -/
lemma cPC_price_pos (item : Item) (v : ℚ) (hp : item.price = some v) (hv : ¬v ≤ 0) :
    currentPriceCandidate item = some v := by
  unfold currentPriceCandidate
  rw [hp]
  simp [hv]

/-- Candidate equation: non-positive direct price, sale object present. -/
lemma cPC_price_nonpos_sale (item : Item) (v : ℚ) (sp : SalePrice)
    (hp : item.price = some v) (hv : v ≤ 0) (hs : item.sale_price = some sp) :
    currentPriceCandidate item = sp.amount := by
  unfold currentPriceCandidate
  rw [hp, hs]
  simp [hv]

/-- Candidate equation: non-positive direct price, no sale object. -/
lemma cPC_price_nonpos_nosale (item : Item) (v : ℚ)
    (hp : item.price = some v) (hv : v ≤ 0) (hs : item.sale_price = none) :
    currentPriceCandidate item = some v := by
  unfold currentPriceCandidate
  rw [hp, hs]
  simp [hv]

/-- Candidate equation: no direct price, sale object present. -/
lemma cPC_noprice_sale (item : Item) (sp : SalePrice)
    (hp : item.price = none) (hs : item.sale_price = some sp) :
    currentPriceCandidate item = sp.amount := by
  unfold currentPriceCandidate
  rw [hp, hs]

/-- Candidate equation: no direct price, no sale object. -/
lemma cPC_noprice_nosale (item : Item)
    (hp : item.price = none) (hs : item.sale_price = none) :
    currentPriceCandidate item = none := by
  unfold currentPriceCandidate
  rw [hp, hs]

/-- A missing-or-nonpositive current price candidate, phrased on the raw
fields the spec mentions. -/
lemma currentPrice_bad_iff (item : Item) :
    (∀ pr, currentPriceCandidate item = some pr → pr ≤ 0) ↔
      ((∀ v, item.price = some v → v ≤ 0) ∧
       (∀ sp a, item.sale_price = some sp → sp.amount = some a → a ≤ 0)) := by
  constructor
  · intro h
    constructor
    · intro v hv
      by_cases hvle : v ≤ 0
      · exact hvle
      · exact absurd (h v (cPC_price_pos item v hv hvle)) hvle
    · intro sp a hsp ha
      cases hp : item.price with
      | some v =>
        by_cases hvle : v ≤ 0
        · exact h a (by rw [cPC_price_nonpos_sale item v sp hp hvle hsp]; exact ha)
        · exact absurd (h v (cPC_price_pos item v hp hvle)) hvle
      | none =>
        exact h a (by rw [cPC_noprice_sale item sp hp hsp]; exact ha)
  · rintro ⟨h1, h2⟩ pr hpr
    cases hp : item.price with
    | some v =>
      by_cases hvle : v ≤ 0
      · cases hs : item.sale_price with
        | some sp =>
          rw [cPC_price_nonpos_sale item v sp hp hvle hs] at hpr
          exact h2 sp pr hs hpr
        | none =>
          rw [cPC_price_nonpos_nosale item v hp hvle hs] at hpr
          cases hpr
          exact hvle
      · exact absurd (h1 v hp) hvle
    | none =>
      cases hs : item.sale_price with
      | some sp =>
        rw [cPC_noprice_sale item sp hp hs] at hpr
        exact h2 sp pr hs hpr
      | none =>
        rw [cPC_noprice_nosale item hp hs] at hpr
        cases hpr

/-- Where a positive current price comes from: the positive direct field,
or (direct absent or non-positive) the sale-price amount. -/
lemma currentPrice_some_pos (item : Item) (pr : ℚ)
    (h : currentPriceCandidate item = some pr) (hpos : 0 < pr) :
    (∃ v, item.price = some v ∧ 0 < v ∧ pr = v) ∨
    ((∀ v, item.price = some v → v ≤ 0) ∧
     ∃ sp, item.sale_price = some sp ∧ sp.amount = some pr) := by
  cases hp : item.price with
  | some v =>
    by_cases hvle : v ≤ 0
    · cases hs : item.sale_price with
      | some sp =>
        right
        refine ⟨fun v' hv' => ?_, sp, rfl, ?_⟩
        · cases hv'
          exact hvle
        · rw [cPC_price_nonpos_sale item v sp hp hvle hs] at h
          exact h
      | none =>
        rw [cPC_price_nonpos_nosale item v hp hvle hs] at h
        obtain rfl := Option.some_inj.mp h
        exact absurd hpos (not_lt.2 hvle)
    · left
      rw [cPC_price_pos item v hp hvle] at h
      obtain rfl := Option.some_inj.mp h
      exact ⟨_, rfl, hpos, rfl⟩
  | none =>
    cases hs : item.sale_price with
    | some sp =>
      right
      refine ⟨fun v hv => ?_, sp, rfl, ?_⟩
      · cases hv
      · rw [cPC_noprice_sale item sp hp hs] at h
        exact h
    | none =>
      rw [cPC_noprice_nosale item hp hs] at h
      cases h

/-- Characterisation of the sanitized original price. -/
lemma sanitizedOriginal_eq_some (item : Item) (pr o : ℚ) :
    sanitizedOriginal item pr = some o ↔
      extract_original_price item = some o ∧ pr < o := by
  unfold sanitizedOriginal
  cases h : extract_original_price item with
  | none => simp
  | some o' =>
    by_cases ho : o' ≤ pr
    · simp only [if_pos ho]
      constructor
      · intro hcon
        cases hcon
      · rintro ⟨ho', hlt⟩
        cases ho'
        exact absurd hlt (not_lt.2 ho)
    · simp only [if_neg ho]
      constructor
      · intro hoo
        cases hoo
        exact ⟨rfl, not_le.1 ho⟩
      · rintro ⟨ho', -⟩
        cases ho'
        rfl

/-- All record fields of a successfully extracted product. -/
lemma extract_some_fields (item : Item) (p : Product)
    (h : extract_product_from_api item = some p) :
    0 < p.price ∧ currentPriceCandidate item = some p.price ∧
    p.title = pyStrip (item.title.getD "") ∧
    p.link = build_product_link item ∧
    p.original_price = sanitizedOriginal item p.price ∧
    p.discount_percent = calculate_discount p.price p.original_price := by
  obtain ⟨ht, pr, hc, hpos, rfl⟩ := (extract_eq_some_iff item p).1 h
  exact ⟨hpos, hc, rfl, rfl, rfl, rfl⟩

/-- The original price recorded on a product strictly exceeds its price. -/
lemma extract_original_gt (item : Item) (p : Product) (o : ℚ)
    (h : extract_product_from_api item = some p)
    (ho : p.original_price = some o) : p.price < o := by
  obtain ⟨-, -, -, -, hor, -⟩ := extract_some_fields item p h
  rw [hor] at ho
  exact ((sanitizedOriginal_eq_some item p.price o).1 ho).2

/-- `_calculate_discount` stays within [0, 100] whenever the price is
positive and any original price strictly exceeds it. -/
lemma calculate_discount_bounds (price : ℚ) (orig : Option ℚ) (hp : 0 < price)
    (hs : ∀ o, orig = some o → price < o) :
    0 ≤ calculate_discount price orig ∧ calculate_discount price orig ≤ 100 := by
  cases orig with
  | none => simp [calculate_discount]
  | some o =>
    have hpo : price < o := hs o rfl
    have ho : 0 < o := lt_trans hp hpo
    simp only [calculate_discount]
    rw [if_neg (by push_neg; exact ⟨ho, hpo⟩)]
    have hq0 : 0 < (o - price) / o * 100 := by
      apply mul_pos _ (by norm_num)
      exact div_pos (by linarith) ho
    have hq100 : (o - price) / o * 100 < 100 := by
      have h1 : (o - price) / o < 1 := (div_lt_one ho).2 (by linarith)
      calc (o - price) / o * 100 < 1 * 100 :=
            mul_lt_mul_of_pos_right h1 (by norm_num)
        _ = 100 := by norm_num
    have hf0 : 0 ≤ ⌊(o - price) / o * 100⌋ := Int.floor_nonneg.2 hq0.le
    have hf100 : ⌊(o - price) / o * 100⌋ < 100 := Int.floor_lt.2 (by exact_mod_cast hq100)
    have b1 := floor_le_pyRound ((o - price) / o * 100)
    have b2 := pyRound_le_floor_add_one ((o - price) / o * 100)
    omega

/-! Concrete evaluations of the extractor on the fixture items. -/

/-- `itemA` (90 from 100) extracts at 10% off. -/
lemma extract_itemA : extract_product_from_api itemA = some prodA := by
  have h : calculate_discount 90 (some 100) = 10 := by
    unfold calculate_discount pyRound
    norm_num
  show some { title := "a", link := "", price := 90, original_price := some 100,
              discount_percent := calculate_discount 90 (some 100) } = some prodA
  rw [h]
  rfl

/-- `itemB` (40 from 100) extracts at 60% off. -/
lemma extract_itemB : extract_product_from_api itemB = some prodB := by
  have h : calculate_discount 40 (some 100) = 60 := by
    unfold calculate_discount pyRound
    norm_num
  show some { title := "b", link := "", price := 40, original_price := some 100,
              discount_percent := calculate_discount 40 (some 100) } = some prodB
  rw [h]
  rfl

/-- `itemC` (25 from 100) extracts at 75% off. -/
lemma extract_itemC : extract_product_from_api itemC = some prodC := by
  have h : calculate_discount 25 (some 100) = 75 := by
    unfold calculate_discount pyRound
    norm_num
  show some { title := "c", link := "", price := 25, original_price := some 100,
              discount_percent := calculate_discount 25 (some 100) } = some prodC
  rw [h]
  rfl

/-- The spec's first example: 80 from 100 is 20% off. -/
lemma extract_item2080 : extract_product_from_api item2080 = some prod2080 := by
  have h : calculate_discount 80 (some 100) = 20 := by
    unfold calculate_discount pyRound
    norm_num
  show some { title := "d", link := "", price := 80, original_price := some 100,
              discount_percent := calculate_discount 80 (some 100) } = some prod2080
  rw [h]
  rfl

/-- The spec's second example: 66 from 99 is round(33.33…) = 33% off. -/
lemma extract_item9966 : extract_product_from_api item9966 = some prod9966 := by
  have h : calculate_discount 66 (some 99) = 33 := by
    unfold calculate_discount pyRound
    norm_num
  show some { title := "e", link := "", price := 66, original_price := some 99,
              discount_percent := calculate_discount 66 (some 99) } = some prod9966
  rw [h]
  rfl

/-- The example page parses into the three fixture records. -/
lemma parse_dataEx : parse_products_from_api dataEx = [prodA, prodB, prodC] := by
  unfold parse_products_from_api dataEx
  simp [List.filterMap, extract_itemA, extract_itemB, extract_itemC]

/-- The over-reporting page parses into the single fixture record. -/
lemma parse_dataMore : parse_products_from_api dataMore = [prodA] := by
  unfold parse_products_from_api dataMore
  simp [List.filterMap, extract_itemA]

/-- The paging-less page parses into the single fixture record. -/
lemma parse_dataNoPaging : parse_products_from_api dataNoPaging = [prodA] := by
  unfold parse_products_from_api dataNoPaging
  simp [List.filterMap, extract_itemA]

/-! The original-price scan agrees with the spec's first-match description. -/

/-- The scan loop returns the amount of the first standard-and-positive
entry. -/
lemma standardPriceAmount_eq (l : List PriceEntry) :
    standardPriceAmount l = ((l.filter isStandardPositive).head?).bind PriceEntry.amount := by
  induction l with
  | nil => rfl
  | cons e rest ih =>
    by_cases ht : e.type.getD "" = "standard"
    · cases ha : e.amount with
      | some a =>
        by_cases hpos : 0 < a
        · have hstd : isStandardPositive e = true := by
            simp [isStandardPositive, ht, ha, hpos]
          simp [standardPriceAmount, ht, ha, hpos, hstd]
        · have hstd : isStandardPositive e = false := by
            simp [isStandardPositive, ha, hpos]
          simp [standardPriceAmount, ht, ha, hpos, hstd, ih]
      | none =>
        have hstd : isStandardPositive e = false := by
          simp [isStandardPositive, ha]
        simp [standardPriceAmount, ht, ha, hstd, ih]
    · have hstd : isStandardPositive e = false := by
        simp [isStandardPositive, ht]
      simp [standardPriceAmount, ht, hstd, ih]

/-- The prices block in spec form. -/
lemma original_from_prices_eq (item : Item) :
    original_from_prices item =
      (((match item.prices with
         | some info => info.prices
         | none => []).filter isStandardPositive).head?).bind PriceEntry.amount := by
  cases hp : item.prices with
  | some info => simp [original_from_prices, hp, standardPriceAmount_eq]
  | none => simp [original_from_prices, hp]

/-- The sale-price block in spec form. -/
lemma original_from_sale_eq (item : Item) :
    original_from_sale_price item =
      (positivePart (item.sale_price.bind SalePrice.regular_amount)).orElse
        (fun _ => original_from_prices item) := by
  cases hs : item.sale_price with
  | some sp =>
    cases hr : sp.regular_amount with
    | some r =>
      by_cases hpos : 0 < r
      · simp [original_from_sale_price, hs, hr, positivePart, hpos, Option.orElse]
      · simp [original_from_sale_price, hs, hr, positivePart, hpos, Option.orElse]
    | none => simp [original_from_sale_price, hs, hr, positivePart, Option.orElse]
  | none => simp [original_from_sale_price, hs, positivePart, Option.orElse]

/-- `_extract_original_price` computes exactly the spec's priority chain. -/
lemma extract_original_eq_spec (item : Item) :
    extract_original_price item = spec_original_price item := by
  unfold extract_original_price spec_original_price
  cases ho : item.original_price with
  | some v =>
    by_cases hv : 0 < v
    · simp [positivePart, hv, Option.orElse]
    · simp [positivePart, hv, Option.orElse, original_from_sale_eq,
        original_from_prices_eq]
  | none =>
    simp [positivePart, Option.orElse, original_from_sale_eq, original_from_prices_eq]

/-! Pagination-loop lemmas. -/

/-- A failed fetch stops the loop with nothing. -/
lemma scrapeLoop_failed (fetch : ℕ → Option ApiResponse) (page fuel : ℕ)
    (h : fetch page = none) : scrapeLoop fetch page (fuel + 1) = [] := by
  unfold scrapeLoop
  rw [h]

/-- A zero reported total stops the loop with nothing. -/
lemma scrapeLoop_zero_total (fetch : ℕ → Option ApiResponse) (page fuel : ℕ)
    (data : ApiResponse) (h : fetch page = some data) (htot : pageTotal data = 0) :
    scrapeLoop fetch page (fuel + 1) = [] := by
  unfold scrapeLoop
  rw [h]
  simp [htot]

/-- A successful page that leaves more results keeps its products and
recurses on the next page. -/
lemma scrapeLoop_cont (fetch : ℕ → Option ApiResponse) (page fuel : ℕ)
    (data : ApiResponse) (h : fetch page = some data) (htot : pageTotal data ≠ 0)
    (hp : parse_products_from_api data ≠ [])
    (hm : ¬pageTotal data ≤ page * ITEMS_PER_PAGE + ITEMS_PER_PAGE) :
    scrapeLoop fetch page (fuel + 1) =
      parse_products_from_api data ++ scrapeLoop fetch (page + 1) fuel := by
  simp only [scrapeLoop]
  rw [h]
  simp [htot, hp, hm]

/-- Running the loop when the first `N` pages succeed with more results
pending and page `N` then fails: the result is the concatenation of the
first `N` pages' products. -/
lemma scrapeLoop_run (fetch : ℕ → Option ApiResponse) (data : ℕ → ApiResponse) :
    ∀ (N page fuel : ℕ), N < fuel →
    (∀ k, k < N → fetch (page + k) = some (data (page + k))) →
    (∀ k, k < N → pageTotal (data (page + k)) ≠ 0) →
    (∀ k, k < N → parse_products_from_api (data (page + k)) ≠ []) →
    (∀ k, k < N → ¬pageTotal (data (page + k)) ≤ (page + k) * ITEMS_PER_PAGE + ITEMS_PER_PAGE) →
    fetch (page + N) = none →
    scrapeLoop fetch page fuel =
      (List.range N).flatMap (fun k => parse_products_from_api (data (page + k))) := by
  intro N
  induction N with
  | zero =>
    intro page fuel hf _ _ _ _ hfail
    obtain ⟨f, rfl⟩ : ∃ f, fuel = f + 1 := ⟨fuel - 1, by omega⟩
    rw [scrapeLoop_failed fetch page f (by simpa using hfail)]
    rfl
  | succ n ih =>
    intro page fuel hf hsucc htot hparse hmore hfail
    obtain ⟨f, rfl⟩ : ∃ f, fuel = f + 1 := ⟨fuel - 1, by omega⟩
    have h0 : fetch page = some (data page) := by
      have := hsucc 0 (Nat.succ_pos n)
      simpa using this
    rw [scrapeLoop_cont fetch page f (data page) h0
      (by simpa using htot 0 (Nat.succ_pos n))
      (by simpa using hparse 0 (Nat.succ_pos n))
      (by simpa using hmore 0 (Nat.succ_pos n))]
    rw [ih (page + 1) f (by omega)
      (fun k hk => by
        rw [show page + 1 + k = page + (k + 1) by omega]
        exact hsucc (k + 1) (by omega))
      (fun k hk => by
        rw [show page + 1 + k = page + (k + 1) by omega]
        exact htot (k + 1) (by omega))
      (fun k hk => by
        rw [show page + 1 + k = page + (k + 1) by omega]
        exact hparse (k + 1) (by omega))
      (fun k hk => by
        rw [show page + 1 + k = page + (k + 1) by omega]
        exact hmore (k + 1) (by omega))
      (by rw [show page + 1 + n = page + (n + 1) by omega]; exact hfail)]
    rw [List.range_succ_eq_map, List.flatMap_cons, List.flatMap_map]
    simp only [Nat.add_zero, Nat.succ_eq_add_one]
    have harg : (fun k => parse_products_from_api (data (page + 1 + k))) =
        (fun a => parse_products_from_api (data (page + (a + 1)))) := by
      funext k
      rw [show page + 1 + k = page + (k + 1) by omega]
    rw [harg]

/-! Stability of the descending sort: elements of one discount level keep
their relative order. -/

/-- Inserting into a run along `discountGE` either prepends the new
element to its own discount level or leaves that level unchanged. -/
lemma filter_orderedInsert_discount (d : ℤ) (a : Product) (l : List Product) :
    (List.orderedInsert discountGE a l).filter (fun p => p.discount_percent = d) =
      if a.discount_percent = d then
        a :: l.filter (fun p => p.discount_percent = d)
      else l.filter (fun p => p.discount_percent = d) := by
  induction l with
  | nil =>
    by_cases ha : a.discount_percent = d <;>
      simp [List.orderedInsert, List.filter, ha]
  | cons b t ih =>
    by_cases hr : discountGE a b
    · by_cases ha : a.discount_percent = d <;>
        by_cases hb : b.discount_percent = d <;>
          simp [List.orderedInsert, hr, List.filter, ha, hb]
    · by_cases ha : a.discount_percent = d
      · by_cases hb : b.discount_percent = d
        · exact absurd (by unfold discountGE; rw [ha, hb]) hr
        · simp [List.orderedInsert, hr, List.filter, ha, hb, ih]
      · by_cases hb : b.discount_percent = d <;>
          simp [List.orderedInsert, hr, List.filter, ha, hb, ih]

/-- Insertion sort along `discountGE` preserves each discount level as a
subsequence: the sort is stable. -/
lemma filter_insertionSort_discount (d : ℤ) (l : List Product) :
    (List.insertionSort discountGE l).filter (fun p => p.discount_percent = d) =
      l.filter (fun p => p.discount_percent = d) := by
  induction l with
  | nil => rfl
  | cons a t ih =>
    simp only [List.insertionSort]
    rw [filter_orderedInsert_discount, ih]
    by_cases ha : a.discount_percent = d <;> simp [List.filter, ha]

/-- Shared helper: a zero effective total on the first page empties the
whole pipeline. -/
lemma scrape_empty_of_zero_total (fetch : ℕ → Option ApiResponse)
    (data : ApiResponse) (md : ℤ) (mp : ℕ)
    (h0 : fetch 0 = some data) (htot : pageTotal data = 0) :
    scrape_mercadolivre fetch md mp = [] := by
  have hloop : scrapeLoop fetch 0 mp = [] := by
    cases mp with
    | zero => rfl
    | succ n => exact scrapeLoop_zero_total fetch 0 n data h0 htot
  show sortByDiscountDesc ((scrapeLoop fetch 0 mp).filter
    fun p => md ≤ p.discount_percent) = []
  rw [hloop]
  rfl

/-! The claims. -/

/-- C1: for every product record produced, `discount_percent` equals
round(((original - price) / original) * 100) whenever the record's
original price exists, is positive and strictly exceeds the price, and
equals 0 otherwise; in particular original=100, current=80 gives 20 and
original=99, current=66 gives 33. -/
theorem discount_percent_rounding :
    (∀ item p, extract_product_from_api item = some p →
      (∀ o, p.original_price = some o → 0 < o → p.price < o →
        p.discount_percent = pyRound ((o - p.price) / o * 100)) ∧
      ((p.original_price = none ∨
        ∃ o, p.original_price = some o ∧ (o ≤ 0 ∨ o ≤ p.price)) →
        p.discount_percent = 0)) ∧
    extract_product_from_api item2080 = some prod2080 ∧
    prod2080.discount_percent = 20 ∧
    extract_product_from_api item9966 = some prod9966 ∧
    prod9966.discount_percent = 33 := by
  refine ⟨?_, extract_item2080, rfl, extract_item9966, rfl⟩
  intro item p h
  obtain ⟨-, -, -, -, -, hd⟩ := extract_some_fields item p h
  constructor
  · intro o ho hopos hlt
    rw [hd, ho]
    simp only [calculate_discount]
    rw [if_neg (by push_neg; exact ⟨hopos, hlt⟩)]
  · rintro (ho | ⟨o, ho, hcase⟩)
    · rw [hd, ho]
      rfl
    · rw [hd, ho]
      simp only [calculate_discount]
      rw [if_pos hcase]

/-- Witness: the discount formula applied to the fixture record at 10%. -/
theorem discount_percent_rounding_witness :
    prodA.discount_percent = pyRound ((100 - prodA.price) / 100 * 100) :=
  ((discount_percent_rounding.1 itemA prodA extract_itemA).1) 100 rfl
    (by norm_num) (by norm_num [prodA])

/-- C2: every record produced by item extraction has an integer discount
in [0, 100], and it is 0 whenever the record has no original price or its
original price does not exceed its current price. -/
theorem discount_percent_in_range (item : Item) (p : Product)
    (h : extract_product_from_api item = some p) :
    0 ≤ p.discount_percent ∧ p.discount_percent ≤ 100 ∧
    ((p.original_price = none ∨
      ∃ o, p.original_price = some o ∧ o ≤ p.price) → p.discount_percent = 0) := by
  obtain ⟨hpos, -, -, -, -, hd⟩ := extract_some_fields item p h
  have hbounds := calculate_discount_bounds p.price p.original_price hpos
    (fun o ho => extract_original_gt item p o h ho)
  rw [hd]
  refine ⟨hbounds.1, hbounds.2, ?_⟩
  rintro (ho | ⟨o, ho, hle⟩)
  · rw [ho]
    rfl
  · exact absurd hle (not_le.2 (extract_original_gt item p o h ho))

/-- Witness: the range bounds at the fixture record at 10%. -/
theorem discount_percent_in_range_witness :
    0 ≤ prodA.discount_percent ∧ prodA.discount_percent ≤ 100 ∧
    ((prodA.original_price = none ∨
      ∃ o, prodA.original_price = some o ∧ o ≤ prodA.price) →
      prodA.discount_percent = 0) :=
  discount_percent_in_range itemA prodA extract_itemA

/-- C3: the pipeline returns exactly the accumulated products meeting the
minimum discount, in non-increasing discount order; on the example page
the accumulated discounts [10, 60, 75] with min_discount 50 yield the
records with discounts [75, 60]. -/
theorem scrape_filter_sort_spec :
    (∀ fetch (md : ℤ) (mp : ℕ),
      (scrape_mercadolivre fetch md mp).Perm
        ((scrapeLoop fetch 0 mp).filter fun p => md ≤ p.discount_percent)) ∧
    (∀ fetch (md : ℤ) (mp : ℕ),
      List.Sorted discountGE (scrape_mercadolivre fetch md mp)) ∧
    (scrapeLoop fetchEx 0 1).map Product.discount_percent = [10, 60, 75] ∧
    scrape_mercadolivre fetchEx 50 1 = [prodC, prodB] ∧
    (scrape_mercadolivre fetchEx 50 1).map Product.discount_percent = [75, 60] := by
  have hloop : scrapeLoop fetchEx 0 1 = [prodA, prodB, prodC] := by
    show parse_products_from_api dataEx = _
    exact parse_dataEx
  have hscr : scrape_mercadolivre fetchEx 50 1 = [prodC, prodB] := by
    show sortByDiscountDesc ((parse_products_from_api dataEx).filter
      fun p => (50:ℤ) ≤ p.discount_percent) = [prodC, prodB]
    rw [parse_dataEx]
    rfl
  refine ⟨?_, ?_, ?_, hscr, ?_⟩
  · intro fetch md mp
    exact List.perm_insertionSort discountGE _
  · intro fetch md mp
    exact List.sorted_insertionSort discountGE _
  · rw [hloop]
    rfl
  · rw [hscr]
    rfl

/-- C4: original-price selection follows the spec's priority order with
the first match winning, and the record's original price is the selected
value exactly when it strictly exceeds the current price, else nothing. -/
theorem original_price_priority :
    (∀ item, extract_original_price item = spec_original_price item) ∧
    (∀ item p, extract_product_from_api item = some p →
      p.original_price = (spec_original_price item).bind
        fun o => if p.price < o then some o else none) := by
  refine ⟨extract_original_eq_spec, ?_⟩
  intro item p h
  obtain ⟨-, -, -, -, hor, -⟩ := extract_some_fields item p h
  rw [hor, ← extract_original_eq_spec item]
  unfold sanitizedOriginal
  cases ho : extract_original_price item with
  | none => rfl
  | some o =>
    by_cases hlt : p.price < o
    · simp [Option.bind, hlt, not_le.2 hlt]
    · simp [Option.bind, hlt, not_lt.1 hlt]

/-- Witness: the recorded original price of the fixture record. -/
theorem original_price_priority_witness :
    prodA.original_price = (spec_original_price itemA).bind
      (fun o => if prodA.price < o then some o else none) :=
  original_price_priority.2 itemA prodA extract_itemA

/-- C5: extraction returns nothing exactly when the stripped title is
empty or both price sources are absent or non-positive; a produced record
takes the positive direct price, else the positive sale amount. -/
theorem extraction_rejects_unpriced (item : Item) :
    (extract_product_from_api item = none ↔
      pyStrip (item.title.getD "") = "" ∨
      ((∀ v, item.price = some v → v ≤ 0) ∧
       (∀ sp a, item.sale_price = some sp → sp.amount = some a → a ≤ 0))) ∧
    (∀ p, extract_product_from_api item = some p →
      (∃ v, item.price = some v ∧ 0 < v ∧ p.price = v) ∨
      ((∀ v, item.price = some v → v ≤ 0) ∧
       ∃ sp, item.sale_price = some sp ∧ sp.amount = some p.price ∧ 0 < p.price)) := by
  constructor
  · rw [extract_eq_none_iff item, currentPrice_bad_iff item]
  · intro p h
    obtain ⟨hpos, hc, -, -, -, -⟩ := extract_some_fields item p h
    rcases currentPrice_some_pos item p.price hc hpos with
      ⟨v, hv, hvpos, hpv⟩ | ⟨hbad, sp, hsp, ha⟩
    · exact Or.inl ⟨v, hv, hvpos, hpv⟩
    · exact Or.inr ⟨hbad, sp, hsp, ha, hpos⟩

/-- Witness: the unpriced fixture item is rejected. -/
theorem extraction_rejects_unpriced_witness :
    extract_product_from_api itemNoPrice = none := by
  apply (extraction_rejects_unpriced itemNoPrice).1.mpr
  right
  constructor
  · intro v hv
    simp [itemNoPrice] at hv
  · intro sp a hsp ha
    simp [itemNoPrice] at hsp

/-- C6: a reported total of zero stops pagination immediately and the
pipeline returns the empty list, whatever max_pages is and whatever later
pages would have contained. -/
theorem scrape_zero_total_empty (fetch : ℕ → Option ApiResponse)
    (data : ApiResponse) (md : ℤ) (mp : ℕ)
    (h0 : fetch 0 = some data) (htot : pageTotal data = 0) :
    scrape_mercadolivre fetch md mp = [] :=
  scrape_empty_of_zero_total fetch data md mp h0 htot

/-- Witness: the zero-total oracle yields the empty list. -/
theorem scrape_zero_total_empty_witness :
    scrape_mercadolivre fetchZero 0 3 = [] :=
  scrape_zero_total_empty fetchZero dataZero 0 3 rfl rfl

/-- C7: when pages 0..N-1 succeed with more results pending and page N
fails at the network layer, the pipeline returns exactly the products of
those first N pages, filtered and sorted, independently of every page
after N. -/
theorem scrape_partial_results (fetch : ℕ → Option ApiResponse)
    (data : ℕ → ApiResponse) (md : ℤ) (mp N : ℕ) (hN : N < mp)
    (hsucc : ∀ k, k < N → fetch k = some (data k))
    (htot : ∀ k, k < N → pageTotal (data k) ≠ 0)
    (hparse : ∀ k, k < N → parse_products_from_api (data k) ≠ [])
    (hmore : ∀ k, k < N → ¬pageTotal (data k) ≤ k * ITEMS_PER_PAGE + ITEMS_PER_PAGE)
    (hfail : fetch N = none) :
    scrape_mercadolivre fetch md mp =
      sortByDiscountDesc (((List.range N).flatMap
        fun k => parse_products_from_api (data k)).filter
          fun p => md ≤ p.discount_percent) := by
  have hloop := scrapeLoop_run fetch data N 0 mp hN
    (fun k hk => by simpa using hsucc k hk)
    (fun k hk => by simpa using htot k hk)
    (fun k hk => by simpa using hparse k hk)
    (fun k hk => by simpa using hmore k hk)
    (by simpa using hfail)
  show sortByDiscountDesc ((scrapeLoop fetch 0 mp).filter
    fun p => md ≤ p.discount_percent) = _
  rw [hloop]
  simp only [Nat.zero_add]

/-- Witness: page 0 succeeds with 200 pending results, page 1 fails; the
single extracted record is still returned. -/
theorem scrape_partial_results_witness :
    scrape_mercadolivre fetchFailAt1 0 3 =
      sortByDiscountDesc (((List.range 1).flatMap
        fun _ => parse_products_from_api dataMore).filter
          fun p => (0:ℤ) ≤ p.discount_percent) :=
  scrape_partial_results fetchFailAt1 (fun _ => dataMore) 0 3 1 (by omega)
    (fun k hk => by
      have h : k = 0 := by omega
      subst h
      rfl)
    (fun k hk => by
      have h : k = 0 := by omega
      subst h
      decide)
    (fun k hk => by
      have h : k = 0 := by omega
      subst h
      rw [parse_dataMore]
      simp)
    (fun k hk => by
      have h : k = 0 := by omega
      subst h
      decide)
    rfl

/-- C8: a record's link is the permalink field when present, else the
generic link field when present, else the empty string. -/
theorem product_link_fallback (item : Item) (p : Product)
    (h : extract_product_from_api item = some p) :
    item.permalink = some p.link ∨
    (item.permalink = none ∧ item.link = some p.link) ∨
    (item.permalink = none ∧ item.link = none ∧ p.link = "") := by
  obtain ⟨-, -, -, hl, -, -⟩ := extract_some_fields item p h
  rw [hl]
  unfold build_product_link
  cases hp : item.permalink with
  | some s => exact Or.inl rfl
  | none =>
    cases hli : item.link with
    | some s => exact Or.inr (Or.inl ⟨rfl, rfl⟩)
    | none => exact Or.inr (Or.inr ⟨rfl, rfl, rfl⟩)

/-- Witness: the fixture item has neither permalink nor link, and its
record's link is the empty string. -/
theorem product_link_fallback_witness :
    itemA.permalink = some prodA.link ∨
    (itemA.permalink = none ∧ itemA.link = some prodA.link) ∨
    (itemA.permalink = none ∧ itemA.link = none ∧ prodA.link = "") :=
  product_link_fallback itemA prodA extract_itemA

/-- C9: a first page carrying no paging object, or a paging object with
no total, is treated as total 0 and empties the pipeline even when its
results would parse into valid products. -/
theorem scrape_missing_paging_empty (fetch : ℕ → Option ApiResponse)
    (data : ApiResponse) (md : ℤ) (mp : ℕ)
    (h0 : fetch 0 = some data)
    (hp : Option.bind data.paging Paging.total = none) :
    scrape_mercadolivre fetch md mp = [] := by
  have htot : pageTotal data = 0 := by
    unfold pageTotal
    cases hpg : data.paging with
    | none => rfl
    | some pg =>
      rw [hpg] at hp
      simp only [Option.bind] at hp
      show pg.total.getD 0 = 0
      rw [hp]
      rfl
  exact scrape_empty_of_zero_total fetch data md mp h0 htot

/-- Witness: the paging-less page parses but the pipeline is empty. -/
theorem scrape_missing_paging_empty_witness :
    scrape_mercadolivre fetchNoPaging 0 4 = [] ∧
    parse_products_from_api dataNoPaging = [prodA] :=
  ⟨scrape_missing_paging_empty fetchNoPaging dataNoPaging 0 4 rfl rfl,
    parse_dataNoPaging⟩

/-- C10: the final sort is stable: within each discount level, output
order equals the order of accumulation (after the min-discount filter,
which itself preserves accumulation order). -/
theorem scrape_ties_stable (fetch : ℕ → Option ApiResponse)
    (md : ℤ) (mp : ℕ) (d : ℤ) :
    (scrape_mercadolivre fetch md mp).filter (fun p => p.discount_percent = d) =
      ((scrapeLoop fetch 0 mp).filter (fun p => md ≤ p.discount_percent)).filter
        (fun p => p.discount_percent = d) :=
  filter_insertionSort_discount d _
